import Mathlib

/-!
Verification development for the PyGravitySimulator repository.

The repository contains two versions of the physics engine:
* `src/gravity_simulator/physics.py` (the current package) — per-particle force
  accumulation, wrap-around ("teleport") boundary handling, volume-conserving
  merge radius, trail samples taken at the edge of the body opposite its motion;
* `src/physics.py` (the legacy module) — pairwise force accumulation with
  Newton's third law, damped reflective boundary bounce at hardcoded 1280x720,
  merge radius `sqrt(total_mass)`, trail samples at the body's center.

Python floats are modelled by exact rationals (ℚ).  The library function
`math.sqrt` (and the cube root `** (1/3)`) have no exact rational counterpart,
so every embedded operation that calls them takes the root function as an
explicit parameter `sqrt : ℚ → ℚ` (resp. `cbrt : ℚ → ℚ`); theorems state the
hypotheses on those parameters that they actually need, and concrete instances
supply functions that are exact on the inputs used.

Python object identity (`is`, `id(...)`) is modelled by list position: the
engines never reorder their particle list, they only mutate elements in place,
so the particle at index `i` keeps identity `i` for the whole operation.
-/

namespace GravitySim

/-- The body model, from `src/gravity_simulator/objects.py` (class `Object`)
and `src/objects.py`.  Fields `color`, `id`, `base_image` and the legacy force
accumulators `fx`, `fy` are omitted: none of the embedded operations read them
(`fx`/`fy` only occur in the legacy `calculate_forces`, which is not needed by
any claim).  `max_trail_length` defaults to 100 in both sources. -/
structure Particle where
  x : ℚ
  y : ℚ
  vx : ℚ
  vy : ℚ
  mass : ℚ
  radius : ℚ
  active : Bool
  trail : List (ℚ × ℚ)
  maxTrailLength : ℕ
deriving Repr, DecidableEq, Inhabited

/-- Engine state, from `PhysicsEngine.__init__` in
`src/gravity_simulator/physics.py` lines 50-68.  Defaults there:
`G = 10.0`, `dt = 0.1`, `softening = 0.1`, `screen_width = 1280`,
`screen_height = 720`. -/
structure Engine where
  particles : List Particle
  G : ℚ
  dt : ℚ
  softening : ℚ
  screenWidth : ℚ
  screenHeight : ℚ
deriving Repr, DecidableEq, Inhabited

/-- `PhysicsEngine.calc_force_beetween_particle`,
`src/gravity_simulator/physics.py` lines 79-98 (the legacy
`calculate_forces` at `src/physics.py` lines 109-120 computes the same pair
formula).  `math.sqrt` is the parameter `sqrt`. -/
def calc_force_beetween_particle (sqrt : ℚ → ℚ) (G softening : ℚ)
    (p1 p2 : Particle) : ℚ × ℚ :=
  let dx := p2.x - p1.x
  let dy := p2.y - p1.y
  let r_sq := dx ^ 2 + dy ^ 2
  let r := sqrt (r_sq + softening ^ 2)
  let force_over_r_cubed := G * p1.mass * p2.mass / (r_sq * r)
  (force_over_r_cubed * dx, force_over_r_cubed * dy)

/-- The denominator `r_sq * r` of `force_over_r_cubed` in
`calc_force_beetween_particle` (line 92 of
`src/gravity_simulator/physics.py`; identically line 116 of
`src/physics.py`), named so that theorems can speak about it. -/
def force_denominator (sqrt : ℚ → ℚ) (softening : ℚ) (p1 p2 : Particle) : ℚ :=
  let dx := p2.x - p1.x
  let dy := p2.y - p1.y
  let r_sq := dx ^ 2 + dy ^ 2
  r_sq * sqrt (r_sq + softening ^ 2)

/-- `PhysicsEngine.calculate_total_force_for_particle`,
`src/gravity_simulator/physics.py` lines 100-131.  The target is given by its
index `ti` into the particle list (`other_particle is target_particle` is
index equality). -/
def calculate_total_force_for_particle (sqrt : ℚ → ℚ) (G softening : ℚ)
    (ps : List Particle) (ti : ℕ) : ℚ × ℚ :=
  let target := ps.getD ti default
  (List.range ps.length).foldl (fun acc i =>
    let other := ps.getD i default
    if i = ti ∧ other.active = true then acc
    else if other.active = false then acc
    else
      let f := calc_force_beetween_particle sqrt G softening target other
      (acc.1 + f.1, acc.2 + f.2)) (0, 0)

/-- `PhysicsEngine.merge_particles`, `src/gravity_simulator/physics.py`
lines 133-179.  Returns the updated pair `(p1, p2)`; the cube root
`** (1/3)` is the parameter `cbrt`. -/
def merge_particles (cbrt : ℚ → ℚ) (p1 p2 : Particle) : Particle × Particle :=
  if p1.active = false ∨ p2.active = false then (p1, p2)
  else
    let total_mass := p1.mass + p2.mass
    let vx_new := (p1.mass * p1.vx + p2.mass * p2.vx) / total_mass
    let vy_new := (p1.mass * p1.vy + p2.mass * p2.vy) / total_mass
    let x_new := (p1.mass * p1.x + p2.mass * p2.x) / total_mass
    let y_new := (p1.mass * p1.y + p2.mass * p2.y) / total_mass
    let r_new := cbrt (p1.radius ^ 3 + p2.radius ^ 3)
    ({ p1 with mass := total_mass, radius := r_new,
               vx := vx_new, vy := vy_new, x := x_new, y := y_new },
     { p2 with active := false })

/-- State carried through the collision scan of
`PhysicsEngine.handle_collision` (`src/gravity_simulator/physics.py`
lines 181-236): the particle list, the `collided_pairs` set (a list of keys),
and — as instrumentation for counting — the number of `merge_particles`
calls performed so far. -/
structure ScanState where
  ps : List Particle
  collided : List (ℕ × ℕ)
  merges : ℕ
deriving Repr, DecidableEq, Inhabited

/-- One inner-loop iteration of `handle_collision`
(`src/gravity_simulator/physics.py` lines 211-236): `a` and `b` are the
identities (list positions) of `active_particles[i]` and
`active_particles[j]`; fields are read from the current state, as Python
reads them through object references.  The pair key `(min id1 id2,
max id1 id2)` of lines 227-230 becomes `(min a b, max a b)`. -/
def collide_pair (cbrt : ℚ → ℚ) (st : ScanState) (a b : ℕ) : ScanState :=
  let p1 := st.ps.getD a default
  let p2 := st.ps.getD b default
  if p2.active = false then st
  else
    let dx := p2.x - p1.x
    let dy := p2.y - p1.y
    let distance_sq := dx ^ 2 + dy ^ 2
    let min_distance := p1.radius + p2.radius
    if distance_sq < min_distance ^ 2 then
      let pair_key : ℕ × ℕ := (min a b, max a b)
      if pair_key ∈ st.collided then st
      else
        let m := merge_particles cbrt p1 p2
        { ps := (st.ps.set a m.1).set b m.2,
          collided := pair_key :: st.collided,
          merges := st.merges + 1 }
    else st

/-- The outer loop of `handle_collision` (`src/gravity_simulator/physics.py`
lines 205-236): iterates over the snapshot of active identities; each row
checks `p1.active` once (the `continue` at lines 208-209) and then runs the
inner loop over the remaining snapshot entries. -/
def scan_rows (cbrt : ℚ → ℚ) : ScanState → List ℕ → ScanState
  | st, [] => st
  | st, a :: rest =>
    let p1 := st.ps.getD a default
    let st' := if p1.active = false then st
               else rest.foldl (fun s b => collide_pair cbrt s a b) st
    scan_rows cbrt st' rest

/-- `PhysicsEngine.handle_collision` with its instrumented scan state,
`src/gravity_simulator/physics.py` lines 181-236.  The snapshot
`active_particles = [p for p in self.particles if p.active]` (line 199)
becomes the list of positions of currently-active particles. -/
def handle_collision_scan (cbrt : ℚ → ℚ) (ps : List Particle) : ScanState :=
  let activeIdx :=
    (List.range ps.length).filter (fun i => (ps.getD i default).active)
  scan_rows cbrt ⟨ps, [], 0⟩ activeIdx

/-- `PhysicsEngine.handle_collision`, the resulting particle list. -/
def handle_collision (cbrt : ℚ → ℚ) (ps : List Particle) : List Particle :=
  (handle_collision_scan cbrt ps).ps

/-- The integration block of `PhysicsEngine.update`
(`src/gravity_simulator/physics.py` lines 254-267): acceleration, then the
velocity update, then the position update using the just-updated velocity. -/
def integrate_particle (dt : ℚ) (p : Particle) (fx_total fy_total : ℚ) :
    Particle :=
  let ax := fx_total / p.mass
  let ay := fy_total / p.mass
  let p' := { p with vx := p.vx + ax * dt, vy := p.vy + ay * dt }
  { p' with x := p'.x + p'.vx * dt, y := p'.y + p'.vy * dt }

/-- The boundary block of `PhysicsEngine.update`
(`src/gravity_simulator/physics.py` lines 269-286): wrap-around
teleportation, each axis checked independently with `if`/`elif`; returns the
updated particle together with the `teleported` flag. -/
def boundary_wrap (screen_width screen_height : ℚ) (p : Particle) :
    Particle × Bool :=
  let xt : ℚ × Bool :=
    if p.x + p.radius < 0 then (screen_width + p.radius, true)
    else if p.x - p.radius > screen_width then (-p.radius, true)
    else (p.x, false)
  let yt : ℚ × Bool :=
    if p.y + p.radius < 0 then (screen_height + p.radius, true)
    else if p.y - p.radius > screen_height then (-p.radius, true)
    else (p.y, false)
  ({ p with x := xt.1, y := yt.1 }, xt.2 || yt.2)

/-- The trail block of `PhysicsEngine.update`
(`src/gravity_simulator/physics.py` lines 288-312): on teleport the trail is
cleared; the new sample is the point on the circle's edge opposite the
velocity direction when `speed > 1e-10`, else the center; then FIFO
eviction (`pop(0)`) when the length exceeds `max_trail_length`. -/
def trail_update (sqrt : ℚ → ℚ) (teleported : Bool) (p : Particle) :
    Particle :=
  let trail0 := if teleported then [] else p.trail
  let speed := sqrt (p.vx ^ 2 + p.vy ^ 2)
  let sample : ℚ × ℚ :=
    if speed > 1 / 10 ^ 10 then
      let ux := -p.vx / speed
      let uy := -p.vy / speed
      (p.x + p.radius * ux, p.y + p.radius * uy)
    else (p.x, p.y)
  let trail1 := trail0 ++ [sample]
  let trail2 := if trail1.length > p.maxTrailLength then trail1.tail else trail1
  { p with trail := trail2 }

/-- One iteration of the per-particle loop of `PhysicsEngine.update`
(`src/gravity_simulator/physics.py` lines 250-312), for the particle at
index `i`: skip it if inactive (lines 251-252), else compute the total
force against the current state (line 255), integrate (lines 257-267),
apply the wrap-around boundary (lines 269-286), update the trail
(lines 288-312), and write the particle back in place. -/
def update_step (sqrt : ℚ → ℚ)
    (G softening dt screen_width screen_height : ℚ)
    (st : List Particle) (i : ℕ) : List Particle :=
  let p := st.getD i default
  if p.active = false then st
  else
    let f := calculate_total_force_for_particle sqrt G softening st i
    let p1 := integrate_particle dt p f.1 f.2
    let pb := boundary_wrap screen_width screen_height p1
    let p2 := trail_update sqrt pb.2 pb.1
    st.set i p2

/-- `PhysicsEngine.update`, `src/gravity_simulator/physics.py` lines 238-314:
the per-particle loop over the list in order (`for p in self.particles`),
then the collision scan. -/
def update (sqrt cbrt : ℚ → ℚ) (e : Engine) : Engine :=
  let ps := (List.range e.particles.length).foldl
    (update_step sqrt e.G e.softening e.dt e.screenWidth e.screenHeight)
    e.particles
  { e with particles := handle_collision cbrt ps }

end GravitySim

namespace Legacy

open GravitySim (Particle)

/-- The boundary block of the legacy `PhysicsEngine.update`
(`src/physics.py` lines 161-179): damped reflective bounce with hardcoded
1280x720 screen — clamp the offending coordinate to keep the circular
extent inside, and set the velocity component to the inward-directed
`abs(v) * 0.8`. -/
def apply_boundary (p : Particle) : Particle :=
  let screen_width : ℚ := 1280
  let screen_height : ℚ := 720
  let xv : ℚ × ℚ :=
    if p.x - p.radius < 0 then (p.radius, |p.vx| * (8 / 10))
    else if p.x + p.radius > screen_width then
      (screen_width - p.radius, -|p.vx| * (8 / 10))
    else (p.x, p.vx)
  let yv : ℚ × ℚ :=
    if p.y - p.radius < 0 then (p.radius, |p.vy| * (8 / 10))
    else if p.y + p.radius > screen_height then
      (screen_height - p.radius, -|p.vy| * (8 / 10))
    else (p.y, p.vy)
  { p with x := xv.1, vx := xv.2, y := yv.1, vy := yv.2 }

/-- The trail block of the legacy `PhysicsEngine.update`
(`src/physics.py` lines 181-185): append the particle's center `(p.x, p.y)`
and evict the oldest sample when over capacity. -/
def trail_append (p : Particle) : Particle :=
  let trail1 := p.trail ++ [(p.x, p.y)]
  { p with trail :=
      if trail1.length > p.maxTrailLength then trail1.tail else trail1 }

/-- The legacy `PhysicsEngine.merge_particles`, `src/physics.py`
lines 232-269: identical to the current merge except the surviving radius is
`math.sqrt(total_mass)` (line 264), not the volume-conserving cube root. -/
def merge_particles (sqrt : ℚ → ℚ) (p1 p2 : Particle) : Particle × Particle :=
  if p1.active = false ∨ p2.active = false then (p1, p2)
  else
    let total_mass := p1.mass + p2.mass
    let vx_new := (p1.mass * p1.vx + p2.mass * p2.vx) / total_mass
    let vy_new := (p1.mass * p1.vy + p2.mass * p2.vy) / total_mass
    let x_new := (p1.mass * p1.x + p2.mass * p2.x) / total_mass
    let y_new := (p1.mass * p1.y + p2.mass * p2.y) / total_mass
    ({ p1 with mass := total_mass, radius := sqrt total_mass,
               vx := vx_new, vy := vy_new, x := x_new, y := y_new },
     { p2 with active := false })

end Legacy

namespace GravitySim

/-- Concrete engine for the boundary counterexample: a single body whose
circular extent lies completely past the right edge
(`x - radius = 1990 > screen_width = 1280`), with the engine's default
parameters `G = 10`, `dt = 0.1`, `softening = 0.1`, `1280x720`. -/
def wrapDemoEngine : Engine :=
  ⟨[⟨2000, 100, 0, 0, 1, 10, true, [], 100⟩], 10, 1 / 10, 1 / 10, 1280, 720⟩

/-- Concrete engine for the trail counterexample: a single moving body
(velocity `(3,4)`, speed `5`) far from every edge, default parameters. -/
def trailDemoEngine : Engine :=
  ⟨[⟨100, 100, 3, 4, 1, 10, true, [], 100⟩], 10, 1 / 10, 1 / 10, 1280, 720⟩

/-- Concrete particles for the legacy-merge radius counterexample:
masses `2` and `2`, radii `1` and `1`, overlapping and active. -/
def legacyMergeDemo1 : Particle := ⟨0, 0, 0, 0, 2, 1, true, [], 100⟩

/-- Second particle of the legacy-merge radius counterexample. -/
def legacyMergeDemo2 : Particle := ⟨1, 0, 0, 0, 2, 1, true, [], 100⟩

end GravitySim

namespace GravitySim

/-- C1: the claim is refuted by the code as written — at coincident
positions the denominator `r_sq * r` of `calc_force_beetween_particle`
(line 92) is zero for every model of `math.sqrt` and every softening value,
positive ones included.  Softening regularizes only the `r` factor; the
`r_sq` factor is the raw squared separation, so at `Δ = 0` Python divides
`G*m1*m2` by zero (`ZeroDivisionError`), contradicting the module's own
docstring formula `F = G·m1·m2·Δ/(|Δ|² + ε²)^(3/2)`, whose denominator is
at least `ε³ > 0`. -/
theorem c1_denominator_zero_at_coincident_positions (sqrt : ℚ → ℚ)
    (softening : ℚ) (p1 p2 : Particle) (hx : p1.x = p2.x) (hy : p1.y = p2.y) :
    force_denominator sqrt softening p1 p2 = 0 := by
  simp [force_denominator, hx, hy]

/-- Witness for C1: two active unit-mass bodies, both at the origin, with
the engine's configured softening `0.1 > 0`. -/
theorem c1_denominator_zero_at_coincident_positions_witness :
    (0 : ℚ) < 1 / 10 ∧
    force_denominator (fun _ => 1) (1 / 10)
      ⟨0, 0, 0, 0, 1, 1, true, [], 100⟩
      ⟨0, 0, 0, 0, 1, 1, true, [], 100⟩ = 0 :=
  ⟨by norm_num,
   c1_denominator_zero_at_coincident_positions (fun _ => 1) (1 / 10) _ _ rfl rfl⟩

/-- C3: the integration block of `update` is semi-implicit (symplectic)
Euler: the velocity absorbs `(F/m)·dt` first, and the position increment is
the just-updated velocity times `dt`; whenever the acceleration step
`(fx/m)·dt·dt` is nonzero this differs observably from using the pre-step
velocity. -/
theorem c3_symplectic_euler_ordering (dt : ℚ) (p : Particle) (fx fy : ℚ)
    (hobs : fx / p.mass * dt * dt ≠ 0) :
    (integrate_particle dt p fx fy).vx = p.vx + fx / p.mass * dt ∧
    (integrate_particle dt p fx fy).vy = p.vy + fy / p.mass * dt ∧
    (integrate_particle dt p fx fy).x =
      p.x + (integrate_particle dt p fx fy).vx * dt ∧
    (integrate_particle dt p fx fy).y =
      p.y + (integrate_particle dt p fx fy).vy * dt ∧
    (integrate_particle dt p fx fy).x ≠ p.x + p.vx * dt := by
  refine ⟨rfl, rfl, rfl, rfl, ?_⟩
  intro hcontra
  apply hobs
  have h' : p.x + (p.vx + fx / p.mass * dt) * dt = p.x + p.vx * dt := hcontra
  linear_combination h'

/-- Witness for C3: unit mass and `dt = 1` with unit force, so the
acceleration step is `1 ≠ 0`. -/
theorem c3_symplectic_euler_ordering_witness :
    (integrate_particle 1 ⟨0, 0, 0, 0, 1, 1, true, [], 100⟩ 1 0).x ≠
      (⟨0, 0, 0, 0, 1, 1, true, [], 100⟩ : Particle).x +
        (⟨0, 0, 0, 0, 1, 1, true, [], 100⟩ : Particle).vx * 1 :=
  (c3_symplectic_euler_ordering 1 ⟨0, 0, 0, 0, 1, 1, true, [], 100⟩ 1 0
    (by norm_num)).2.2.2.2

/-- C4: for a merge of two active bodies the surviving body's mass is
exactly `m1 + m2`, its velocity is the mass-weighted average (so post-merge
momentum equals pre-merge momentum exactly in exact arithmetic), and its
position is the center of mass. -/
theorem c4_merge_mass_momentum_com (cbrt : ℚ → ℚ) (p1 p2 : Particle)
    (h1 : p1.active = true) (h2 : p2.active = true)
    (hm1 : 0 < p1.mass) (hm2 : 0 < p2.mass) :
    (merge_particles cbrt p1 p2).1.mass = p1.mass + p2.mass ∧
    (merge_particles cbrt p1 p2).1.vx =
      (p1.mass * p1.vx + p2.mass * p2.vx) / (p1.mass + p2.mass) ∧
    (merge_particles cbrt p1 p2).1.vy =
      (p1.mass * p1.vy + p2.mass * p2.vy) / (p1.mass + p2.mass) ∧
    (merge_particles cbrt p1 p2).1.mass * (merge_particles cbrt p1 p2).1.vx =
      p1.mass * p1.vx + p2.mass * p2.vx ∧
    (merge_particles cbrt p1 p2).1.mass * (merge_particles cbrt p1 p2).1.vy =
      p1.mass * p1.vy + p2.mass * p2.vy ∧
    (merge_particles cbrt p1 p2).1.x =
      (p1.mass * p1.x + p2.mass * p2.x) / (p1.mass + p2.mass) ∧
    (merge_particles cbrt p1 p2).1.y =
      (p1.mass * p1.y + p2.mass * p2.y) / (p1.mass + p2.mass) := by
  have hM : p1.mass + p2.mass ≠ 0 := by positivity
  simp only [merge_particles]
  rw [if_neg (by simp [h1, h2])]
  refine ⟨rfl, rfl, rfl, ?_, ?_, rfl, rfl⟩ <;>
    · field_simp

/-- Witness for C4: masses `1` and `3`, velocities `(2,0)` and `(0,0)` —
post-merge momentum equals the pre-merge total `2`. -/
theorem c4_merge_mass_momentum_com_witness :
    (merge_particles (fun q => q)
        ⟨0, 0, 2, 0, 1, 1, true, [], 100⟩
        ⟨1, 0, 0, 0, 3, 1, true, [], 100⟩).1.mass *
      (merge_particles (fun q => q)
        ⟨0, 0, 2, 0, 1, 1, true, [], 100⟩
        ⟨1, 0, 0, 0, 3, 1, true, [], 100⟩).1.vx =
      (⟨0, 0, 2, 0, 1, 1, true, [], 100⟩ : Particle).mass *
        (⟨0, 0, 2, 0, 1, 1, true, [], 100⟩ : Particle).vx +
      (⟨1, 0, 0, 0, 3, 1, true, [], 100⟩ : Particle).mass *
        (⟨1, 0, 0, 0, 3, 1, true, [], 100⟩ : Particle).vx :=
  (c4_merge_mass_momentum_com (fun q => q) _ _ rfl rfl
    (by norm_num) (by norm_num)).2.2.2.1

/-- Counterexample for C5: the legacy `merge_particles` of `src/physics.py`
(line 264) sets the surviving radius to `math.sqrt(total_mass)`.  With
masses `2, 2` and radii `1, 1` the merged radius is `sqrt(4) = 2` (the sqrt
model is exact at the only input it is evaluated on), and `2³ = 8 ≠ 1³ + 1³
= 2`, so "for every merge, radius'³ = r1³ + r2³" fails on the legacy
engine. -/
theorem c5_counterexample_legacy_radius :
    (Legacy.merge_particles (fun _ => 2)
        legacyMergeDemo1 legacyMergeDemo2).1.radius ^ 3 ≠
      legacyMergeDemo1.radius ^ 3 + legacyMergeDemo2.radius ^ 3 := by
  norm_num [Legacy.merge_particles, legacyMergeDemo1, legacyMergeDemo2]

/-- C5 (amended to the `gravity_simulator` engine): the surviving radius is
the cube root of `r1³ + r2³`, so whenever the cube-root computation is
exact to within `ε`, the volume identity `radius'³ = r1³ + r2³` holds to
within the same `ε` — and it is computed from the radii, not from any
mass-derived quantity. -/
theorem c5_merge_radius_cuberoot (cbrt : ℚ → ℚ) (p1 p2 : Particle) (ε : ℚ)
    (h1 : p1.active = true) (h2 : p2.active = true)
    (hcb : |cbrt (p1.radius ^ 3 + p2.radius ^ 3) ^ 3 -
            (p1.radius ^ 3 + p2.radius ^ 3)| ≤ ε) :
    (merge_particles cbrt p1 p2).1.radius =
      cbrt (p1.radius ^ 3 + p2.radius ^ 3) ∧
    |(merge_particles cbrt p1 p2).1.radius ^ 3 -
      (p1.radius ^ 3 + p2.radius ^ 3)| ≤ ε := by
  simp only [merge_particles]
  rw [if_neg (by simp [h1, h2])]
  exact ⟨rfl, hcb⟩

/-- Witness for C5: radii `1` and `1` with the cube-root model `1.26`
(`1.26³ = 2.000376`), exact to within `ε = 1/1000`. -/
theorem c5_merge_radius_cuberoot_witness :
    |(merge_particles (fun _ => 63 / 50)
        ⟨0, 0, 0, 0, 2, 1, true, [], 100⟩
        ⟨1, 0, 0, 0, 2, 1, true, [], 100⟩).1.radius ^ 3 -
      ((⟨0, 0, 0, 0, 2, 1, true, [], 100⟩ : Particle).radius ^ 3 +
       (⟨1, 0, 0, 0, 2, 1, true, [], 100⟩ : Particle).radius ^ 3)| ≤
      1 / 1000 :=
  (c5_merge_radius_cuberoot (fun _ => 63 / 50) _ _ (1 / 1000) rfl rfl
    (by norm_num [abs_le])).2

/-- C9: merging requires both participants active — if either body is
inactive, both engines' `merge_particles` return both bodies exactly
unchanged (every field). -/
theorem c9_merge_inactive_noop (cbrt sq : ℚ → ℚ) (p1 p2 : Particle)
    (h : p1.active = false ∨ p2.active = false) :
    merge_particles cbrt p1 p2 = (p1, p2) ∧
    Legacy.merge_particles sq p1 p2 = (p1, p2) := by
  constructor
  · simp only [merge_particles]
    rw [if_pos h]
  · simp only [Legacy.merge_particles]
    rw [if_pos h]

/-- FIFO helper: appending one sample and evicting the oldest when over
capacity keeps the length within capacity. -/
theorem fifo_length_le (l : List (ℚ × ℚ)) (a : ℚ × ℚ) (m : ℕ)
    (h : l.length ≤ m) :
    (if (l ++ [a]).length > m then (l ++ [a]).tail else l ++ [a]).length
      ≤ m := by
  by_cases hc : (l ++ [a]).length > m
  · rw [if_pos hc]
    simp only [List.length_tail, List.length_append, List.length_singleton]
    omega
  · rw [if_neg hc]
    omega

/-- FIFO helper: with capacity at least one, the freshly appended sample
survives eviction as the newest element. -/
theorem fifo_getLast (l : List (ℚ × ℚ)) (a : ℚ × ℚ) (m : ℕ)
    (h : l.length ≤ m) (hm : 1 ≤ m) :
    (if (l ++ [a]).length > m then (l ++ [a]).tail else l ++ [a]).getLast?
      = some a := by
  by_cases hc : (l ++ [a]).length > m
  · rw [if_pos hc]
    cases l with
    | nil => simp at hc; omega
    | cons x xs =>
      simp only [List.cons_append, List.tail_cons]
      exact List.getLast?_concat _
  · rw [if_neg hc]
    exact List.getLast?_concat _

/-- Witness for C9: an inactive first body with arbitrary concrete fields. -/
theorem c9_merge_inactive_noop_witness :
    merge_particles (fun q => q)
        ⟨0, 0, 0, 0, 1, 1, false, [], 100⟩ ⟨1, 0, 0, 0, 1, 1, true, [], 100⟩ =
      (⟨0, 0, 0, 0, 1, 1, false, [], 100⟩, ⟨1, 0, 0, 0, 1, 1, true, [], 100⟩) ∧
    Legacy.merge_particles (fun q => q)
        ⟨0, 0, 0, 0, 1, 1, false, [], 100⟩ ⟨1, 0, 0, 0, 1, 1, true, [], 100⟩ =
      (⟨0, 0, 0, 0, 1, 1, false, [], 100⟩, ⟨1, 0, 0, 0, 1, 1, true, [], 100⟩) :=
  c9_merge_inactive_noop (fun q => q) (fun q => q) _ _ (Or.inl rfl)

/-- Counterexample for C8: one `update` of `trailDemoEngine` (single body at
`(100,100)` with velocity `(3,4)`, radius `10`, no forces).  After
integration the center is `(100.3, 100.4)`, but the appended trail sample
is `(94.3, 92.4)` — the point on the circle's edge opposite the motion
(`speed = 5`; the sqrt model returns `math.sqrt(25) = 5` at the only input
it is evaluated on) — not the center, refuting "the body's current position
(its center coordinates) is appended". -/
theorem c8_counterexample_edge_sample :
    ((update (fun _ => 5) (fun q => q) trailDemoEngine).particles.getD 0
        default).trail = [(943 / 10, 462 / 5)] ∧
    ((update (fun _ => 5) (fun q => q) trailDemoEngine).particles.getD 0
        default).x = 1003 / 10 ∧
    ((update (fun _ => 5) (fun q => q) trailDemoEngine).particles.getD 0
        default).y = 502 / 5 ∧
    (943 / 10, (462 : ℚ) / 5) ≠ ((1003 : ℚ) / 10, (502 : ℚ) / 5) := by
  refine ⟨?_, ?_, ?_, by norm_num⟩ <;>
    norm_num [update, update_step, trailDemoEngine, calculate_total_force_for_particle,
      integrate_particle, boundary_wrap, trail_update, handle_collision,
      handle_collision_scan, scan_rows, collide_pair, List.range_succ,
      List.getD]

/-- C8 (amended): in the `gravity_simulator` engine the per-step trail
sample is the point on the body's circular edge opposite its velocity
direction when `speed > 1e-10` and the center otherwise; the legacy engine
appends the center; in both, FIFO eviction keeps the trail length within
`max_trail_length`. -/
theorem c8_trail_sample_and_bound (sqrt : ℚ → ℚ) (tel : Bool) (p : Particle)
    (hlen : p.trail.length ≤ p.maxTrailLength) (hm : 1 ≤ p.maxTrailLength) :
    (trail_update sqrt tel p).trail.length ≤ p.maxTrailLength ∧
    (trail_update sqrt tel p).trail.getLast? =
      some (if sqrt (p.vx ^ 2 + p.vy ^ 2) > 1 / 10 ^ 10 then
              (p.x + p.radius * (-p.vx / sqrt (p.vx ^ 2 + p.vy ^ 2)),
               p.y + p.radius * (-p.vy / sqrt (p.vx ^ 2 + p.vy ^ 2)))
            else (p.x, p.y)) ∧
    (Legacy.trail_append p).trail.length ≤ p.maxTrailLength ∧
    (Legacy.trail_append p).trail.getLast? = some (p.x, p.y) := by
  have h0 : (if tel then ([] : List (ℚ × ℚ)) else p.trail).length ≤
      p.maxTrailLength := by
    cases tel
    · simpa using hlen
    · simp
  refine ⟨?_, ?_, ?_, ?_⟩
  · simpa [trail_update] using
      fifo_length_le (if tel then [] else p.trail) _ p.maxTrailLength h0
  · simpa [trail_update] using
      fifo_getLast (if tel then [] else p.trail) _ p.maxTrailLength h0 hm
  · simpa [Legacy.trail_append] using
      fifo_length_le p.trail _ p.maxTrailLength hlen
  · simpa [Legacy.trail_append] using
      fifo_getLast p.trail _ p.maxTrailLength hlen hm

/-- Witness for C8: a stationary body (speed `0 ≤ 1e-10`, sample is the
center) with a trail already at capacity `1`. -/
theorem c8_trail_sample_and_bound_witness :
    (trail_update (fun _ => 0) false
        ⟨4, 5, 0, 0, 1, 1, true, [(0, 0)], 1⟩).trail.length ≤ 1 ∧
    (trail_update (fun _ => 0) false
        ⟨4, 5, 0, 0, 1, 1, true, [(0, 0)], 1⟩).trail.getLast? =
      some (if (fun _ => (0 : ℚ)) ((0 : ℚ) ^ 2 + 0 ^ 2) > 1 / 10 ^ 10 then
              (4 + 1 * (-0 / (fun _ => (0 : ℚ)) ((0 : ℚ) ^ 2 + 0 ^ 2)),
               5 + 1 * (-0 / (fun _ => (0 : ℚ)) ((0 : ℚ) ^ 2 + 0 ^ 2)))
            else (4, 5)) ∧
    (Legacy.trail_append ⟨4, 5, 0, 0, 1, 1, true, [(0, 0)], 1⟩).trail.length
      ≤ 1 ∧
    (Legacy.trail_append
        ⟨4, 5, 0, 0, 1, 1, true, [(0, 0)], 1⟩).trail.getLast? =
      some (4, 5) :=
  c8_trail_sample_and_bound (fun _ => 0) false
    ⟨4, 5, 0, 0, 1, 1, true, [(0, 0)], 1⟩ (by simp) (by norm_num)

/-- Counterexample for C2: one `update` of `wrapDemoEngine` (a single active
body with radius `10` whose extent lies fully past the right edge).  The
`gravity_simulator` engine does not clamp and reflect: it teleports the body
to `x = -radius = -10` with velocity unchanged, so after `step()` the
claimed containment `radius ≤ x` fails (`-10 < 10`), and no `0.8` damping
occurred. -/
theorem c2_counterexample_wraparound :
    ((update (fun _ => 0) (fun q => q) wrapDemoEngine).particles.getD 0
        default).active = true ∧
    ((update (fun _ => 0) (fun q => q) wrapDemoEngine).particles.getD 0
        default).radius = 10 ∧
    ((update (fun _ => 0) (fun q => q) wrapDemoEngine).particles.getD 0
        default).x = -10 ∧
    ((update (fun _ => 0) (fun q => q) wrapDemoEngine).particles.getD 0
        default).vx = 0 ∧
    ¬(((update (fun _ => 0) (fun q => q) wrapDemoEngine).particles.getD 0
        default).radius ≤
      ((update (fun _ => 0) (fun q => q) wrapDemoEngine).particles.getD 0
        default).x) := by
  have ha : ((update (fun _ => 0) (fun q => q) wrapDemoEngine).particles.getD
      0 default).active = true := by
    norm_num [update, update_step, wrapDemoEngine, calculate_total_force_for_particle,
      integrate_particle, boundary_wrap, trail_update, handle_collision,
      handle_collision_scan, scan_rows, collide_pair, List.range_succ,
      List.getD]
  have hr : ((update (fun _ => 0) (fun q => q) wrapDemoEngine).particles.getD
      0 default).radius = 10 := by
    norm_num [update, update_step, wrapDemoEngine, calculate_total_force_for_particle,
      integrate_particle, boundary_wrap, trail_update, handle_collision,
      handle_collision_scan, scan_rows, collide_pair, List.range_succ,
      List.getD]
  have hx : ((update (fun _ => 0) (fun q => q) wrapDemoEngine).particles.getD
      0 default).x = -10 := by
    norm_num [update, update_step, wrapDemoEngine, calculate_total_force_for_particle,
      integrate_particle, boundary_wrap, trail_update, handle_collision,
      handle_collision_scan, scan_rows, collide_pair, List.range_succ,
      List.getD]
  have hv : ((update (fun _ => 0) (fun q => q) wrapDemoEngine).particles.getD
      0 default).vx = 0 := by
    norm_num [update, update_step, wrapDemoEngine, calculate_total_force_for_particle,
      integrate_particle, boundary_wrap, trail_update, handle_collision,
      handle_collision_scan, scan_rows, collide_pair, List.range_succ,
      List.getD]
  refine ⟨ha, hr, hx, hv, ?_⟩
  rw [hr, hx]
  norm_num

/-- C2 (amended to the legacy engine): the boundary pass of the legacy
`update` in `src/physics.py` is the damped reflective bounce — each axis
independently, the offending coordinate is clamped so the circular extent
fits in the hardcoded `[0,1280] x [0,720]` region and the velocity
component is set inward to `|v| * 0.8` — and immediately after it every
body with `2*radius ≤ 720` satisfies `radius ≤ x ≤ 1280 - radius` and
`radius ≤ y ≤ 720 - radius`. -/
theorem c2_legacy_damped_bounce (p : Particle)
    (hr2 : 2 * p.radius ≤ 720) :
    (p.radius ≤ (Legacy.apply_boundary p).x ∧
     (Legacy.apply_boundary p).x ≤ 1280 - p.radius) ∧
    (p.radius ≤ (Legacy.apply_boundary p).y ∧
     (Legacy.apply_boundary p).y ≤ 720 - p.radius) ∧
    (p.x - p.radius < 0 →
      (Legacy.apply_boundary p).x = p.radius ∧
      (Legacy.apply_boundary p).vx = |p.vx| * (8 / 10)) ∧
    (¬(p.x - p.radius < 0) → p.x + p.radius > 1280 →
      (Legacy.apply_boundary p).x = 1280 - p.radius ∧
      (Legacy.apply_boundary p).vx = -|p.vx| * (8 / 10)) ∧
    (p.y - p.radius < 0 →
      (Legacy.apply_boundary p).y = p.radius ∧
      (Legacy.apply_boundary p).vy = |p.vy| * (8 / 10)) ∧
    (¬(p.y - p.radius < 0) → p.y + p.radius > 720 →
      (Legacy.apply_boundary p).y = 720 - p.radius ∧
      (Legacy.apply_boundary p).vy = -|p.vy| * (8 / 10)) := by
  simp only [Legacy.apply_boundary]
  split_ifs <;>
    refine ⟨⟨?_, ?_⟩, ⟨?_, ?_⟩, ?_, ?_, ?_, ?_⟩ <;>
    intros <;>
    first
      | rfl
      | constructor <;> rfl
      | linarith

/-- Witness for C2 (amended): a body of radius `10` past the left and below
the bottom edge is clamped to `(10, 10)` with both velocity components
damped inward. -/
theorem c2_legacy_damped_bounce_witness :
    ((10 : ℚ) ≤ (Legacy.apply_boundary ⟨-50, -3, -2, -4, 1, 10, true, [], 100⟩).x ∧
     (Legacy.apply_boundary ⟨-50, -3, -2, -4, 1, 10, true, [], 100⟩).x ≤ 1280 - 10) ∧
    ((10 : ℚ) ≤ (Legacy.apply_boundary ⟨-50, -3, -2, -4, 1, 10, true, [], 100⟩).y ∧
     (Legacy.apply_boundary ⟨-50, -3, -2, -4, 1, 10, true, [], 100⟩).y ≤ 720 - 10) ∧
    ((-50 : ℚ) - 10 < 0 →
      (Legacy.apply_boundary ⟨-50, -3, -2, -4, 1, 10, true, [], 100⟩).x = 10 ∧
      (Legacy.apply_boundary ⟨-50, -3, -2, -4, 1, 10, true, [], 100⟩).vx =
        |(-2 : ℚ)| * (8 / 10)) ∧
    (¬((-50 : ℚ) - 10 < 0) → (-50 : ℚ) + 10 > 1280 →
      (Legacy.apply_boundary ⟨-50, -3, -2, -4, 1, 10, true, [], 100⟩).x = 1280 - 10 ∧
      (Legacy.apply_boundary ⟨-50, -3, -2, -4, 1, 10, true, [], 100⟩).vx =
        -|(-2 : ℚ)| * (8 / 10)) ∧
    ((-3 : ℚ) - 10 < 0 →
      (Legacy.apply_boundary ⟨-50, -3, -2, -4, 1, 10, true, [], 100⟩).y = 10 ∧
      (Legacy.apply_boundary ⟨-50, -3, -2, -4, 1, 10, true, [], 100⟩).vy =
        |(-4 : ℚ)| * (8 / 10)) ∧
    (¬((-3 : ℚ) - 10 < 0) → (-3 : ℚ) + 10 > 720 →
      (Legacy.apply_boundary ⟨-50, -3, -2, -4, 1, 10, true, [], 100⟩).y = 720 - 10 ∧
      (Legacy.apply_boundary ⟨-50, -3, -2, -4, 1, 10, true, [], 100⟩).vy =
        -|(-4 : ℚ)| * (8 / 10)) :=
  c2_legacy_damped_bounce ⟨-50, -3, -2, -4, 1, 10, true, [], 100⟩
    (by norm_num)

/-- C10: in the `gravity_simulator` engine's `update`, a body whose circular
extent has completely left the region on some axis is teleported to the
opposite side of that axis with its velocity unchanged, and its trail is
cleared before the new sample is appended, so the trail has length exactly
`1` at the end of that step (for any capacity of at least one). -/
theorem c10_wraparound_teleport_clears_trail (sqrt : ℚ → ℚ) (w h : ℚ)
    (p : Particle) (hm : 1 ≤ p.maxTrailLength)
    (hout : p.x + p.radius < 0 ∨ p.x - p.radius > w ∨
            p.y + p.radius < 0 ∨ p.y - p.radius > h) :
    (boundary_wrap w h p).2 = true ∧
    (boundary_wrap w h p).1.vx = p.vx ∧
    (boundary_wrap w h p).1.vy = p.vy ∧
    (trail_update sqrt (boundary_wrap w h p).2
        (boundary_wrap w h p).1).trail.length = 1 ∧
    (trail_update sqrt (boundary_wrap w h p).2
        (boundary_wrap w h p).1).vx = p.vx ∧
    (trail_update sqrt (boundary_wrap w h p).2
        (boundary_wrap w h p).1).vy = p.vy ∧
    (p.x + p.radius < 0 → (boundary_wrap w h p).1.x = w + p.radius) ∧
    (¬(p.x + p.radius < 0) → p.x - p.radius > w →
      (boundary_wrap w h p).1.x = -p.radius) ∧
    (p.y + p.radius < 0 → (boundary_wrap w h p).1.y = h + p.radius) ∧
    (¬(p.y + p.radius < 0) → p.y - p.radius > h →
      (boundary_wrap w h p).1.y = -p.radius) := by
  have htel : (boundary_wrap w h p).2 = true := by
    simp only [boundary_wrap]
    split_ifs <;> simp_all
  have hlen1 : ∀ q : Particle, 1 ≤ q.maxTrailLength →
      (trail_update sqrt true q).trail.length = 1 := by
    intro q hq
    simp only [trail_update]
    rw [if_neg (by simp; omega)]
    simp
  refine ⟨htel, ?_, ?_, ?_, ?_, ?_, ?_, ?_, ?_, ?_⟩
  · simp [boundary_wrap]
  · simp [boundary_wrap]
  · rw [htel]
    exact hlen1 _ (by simp [boundary_wrap, hm])
  · rw [htel]
    simp [trail_update, boundary_wrap]
  · rw [htel]
    simp [trail_update, boundary_wrap]
  · intro hc
    simp only [boundary_wrap]
    rw [if_pos hc]
  · intro hc1 hc2
    simp only [boundary_wrap]
    rw [if_neg hc1, if_pos hc2]
  · intro hc
    simp only [boundary_wrap]
    rw [if_pos hc]
  · intro hc1 hc2
    simp only [boundary_wrap]
    rw [if_neg hc1, if_pos hc2]

/-- Witness for C10: a body of radius `5` at `x = -20` (extent fully past
the left edge of a `1280x720` region), trail capacity `100`. -/
theorem c10_wraparound_teleport_clears_trail_witness :
    (boundary_wrap 1280 720 ⟨-20, 100, 7, 0, 1, 5, true, [(1, 1)], 100⟩).2
      = true ∧
    (trail_update (fun _ => 7)
        (boundary_wrap 1280 720 ⟨-20, 100, 7, 0, 1, 5, true, [(1, 1)], 100⟩).2
        (boundary_wrap 1280 720
          ⟨-20, 100, 7, 0, 1, 5, true, [(1, 1)], 100⟩).1).trail.length = 1 ∧
    ((-20 : ℚ) + 5 < 0 →
      (boundary_wrap 1280 720
        ⟨-20, 100, 7, 0, 1, 5, true, [(1, 1)], 100⟩).1.x = 1280 + 5) :=
  have h := c10_wraparound_teleport_clears_trail (fun _ => 7) 1280 720
    ⟨-20, 100, 7, 0, 1, 5, true, [(1, 1)], 100⟩ (by norm_num)
    (Or.inl (by norm_num))
  ⟨h.1, h.2.2.2.1, h.2.2.2.2.2.2.1⟩

/-- In-place mutation helper: writing one list slot leaves every other slot
unchanged. -/
theorem getD_set_ne (l : List Particle) (i j : ℕ) (a : Particle)
    (h : i ≠ j) : (l.set i a).getD j default = l.getD j default := by
  simp [List.getD, List.get?_eq_getElem?, List.getElem?_set, h]

/-- A fold whose body skips elements failing a test equals the fold over
the filtered list. -/
theorem foldl_skip {α β : Type} (f : α → β → α) (p : β → Bool)
    (l : List β) (acc : α) :
    l.foldl (fun a b => if p b then f a b else a) acc =
      (l.filter p).foldl f acc := by
  induction l generalizing acc with
  | nil => rfl
  | cons x xs ih =>
    by_cases hx : p x <;> simp [List.filter_cons, hx, ih]

/-- Each iteration of the per-particle loop either leaves the state alone
or writes back the slot of a particle that was active when read. -/
theorem update_step_cases (sqrt : ℚ → ℚ)
    (G softening dt w h : ℚ) (st : List Particle) (i : ℕ) :
    update_step sqrt G softening dt w h st i = st ∨
    ((st.getD i default).active = true ∧
      ∃ q, update_step sqrt G softening dt w h st i = st.set i q) := by
  by_cases hact : (st.getD i default).active = false
  · left
    simp only [update_step]
    rw [if_pos hact]
  · right
    exact ⟨by simpa using hact, _,
      by simp only [update_step]; rw [if_neg hact]⟩

/-- The per-particle loop never touches the slot of a particle that is
inactive when the loop starts. -/
theorem update_loop_preserves_inactive (sqrt : ℚ → ℚ)
    (G softening dt w h : ℚ) (idxs : List ℕ) (st : List Particle) (k : ℕ)
    (hk : (st.getD k default).active = false) :
    (idxs.foldl (update_step sqrt G softening dt w h) st).getD k default =
      st.getD k default := by
  induction idxs generalizing st with
  | nil => rfl
  | cons i rest ih =>
    have hstep : (update_step sqrt G softening dt w h st i).getD k default =
        st.getD k default := by
      rcases update_step_cases sqrt G softening dt w h st i with
        heq | ⟨hact, q, heq⟩
      · rw [heq]
      · rw [heq]
        have hik : i ≠ k := by
          rintro rfl
          rw [hk] at hact
          cases hact
        exact getD_set_ne _ _ _ _ hik
    rw [List.foldl_cons,
        ih (update_step sqrt G softening dt w h st i) (by rw [hstep]; exact hk),
        hstep]

/-- One inner collision-scan iteration never touches a slot other than the
two it may merge. -/
theorem collide_pair_preserves (cbrt : ℚ → ℚ) (st : ScanState) (a b k : ℕ)
    (ha : a ≠ k) (hb : b ≠ k) :
    (collide_pair cbrt st a b).ps.getD k default = st.ps.getD k default := by
  simp only [collide_pair]
  split_ifs <;> try rfl
  exact (getD_set_ne _ _ _ _ hb).trans (getD_set_ne _ _ _ _ ha)

/-- A collision-scan row rooted at `a` only writes slots `a` and the inner
snapshot entries. -/
theorem collide_row_preserves (cbrt : ℚ → ℚ) (a k : ℕ) (ha : a ≠ k)
    (bs : List ℕ) (hbs : k ∉ bs) (st : ScanState) :
    ((bs.foldl (fun s b => collide_pair cbrt s a b) st).ps.getD k default) =
      st.ps.getD k default := by
  induction bs generalizing st with
  | nil => rfl
  | cons b rest ih =>
    simp only [List.mem_cons, not_or] at hbs
    rw [List.foldl_cons, ih hbs.2,
        collide_pair_preserves cbrt st a b k ha (Ne.symm hbs.1)]

/-- The collision scan never touches the slot of a particle that is not in
the snapshot of active identities. -/
theorem scan_rows_preserves (cbrt : ℚ → ℚ) (idxs : List ℕ) (st : ScanState)
    (k : ℕ) (hk : k ∉ idxs) :
    (scan_rows cbrt st idxs).ps.getD k default = st.ps.getD k default := by
  induction idxs generalizing st with
  | nil => rfl
  | cons a rest ih =>
    simp only [List.mem_cons, not_or] at hk
    simp only [scan_rows]
    rw [ih _ hk.2]
    split_ifs
    · rfl
    · exact collide_row_preserves cbrt a k (Ne.symm hk.1) rest hk.2 st

/-- C6: (i) the pairwise force of `calc_force_beetween_particle` is exactly
antisymmetric, component-wise, for every model of `math.sqrt` (the square
root is evaluated at the same argument either way); (ii) the accumulated
total force of `calculate_total_force_for_particle` is the fold over
exactly the active bodies other than the target, so an inactive body
contributes zero to it; (iii) an inactive body receives no force: a full
`update` leaves an inactive body's slot exactly unchanged. -/
theorem c6_force_antisymmetry_inactive_inert (sqrt cbrt : ℚ → ℚ)
    (G softening : ℚ) (p1 p2 : Particle) (ps : List Particle) (ti : ℕ)
    (e : Engine) (k : ℕ)
    (hk : (e.particles.getD k default).active = false) :
    (calc_force_beetween_particle sqrt G softening p1 p2).1 =
      -(calc_force_beetween_particle sqrt G softening p2 p1).1 ∧
    (calc_force_beetween_particle sqrt G softening p1 p2).2 =
      -(calc_force_beetween_particle sqrt G softening p2 p1).2 ∧
    calculate_total_force_for_particle sqrt G softening ps ti =
      ((List.range ps.length).filter
          (fun i => decide (i ≠ ti) && (ps.getD i default).active)).foldl
        (fun acc i =>
          (acc.1 + (calc_force_beetween_particle sqrt G softening
              (ps.getD ti default) (ps.getD i default)).1,
           acc.2 + (calc_force_beetween_particle sqrt G softening
              (ps.getD ti default) (ps.getD i default)).2)) (0, 0) ∧
    (update sqrt cbrt e).particles.getD k default =
      e.particles.getD k default := by
  have harg : (p1.x - p2.x) ^ 2 + (p1.y - p2.y) ^ 2 =
      (p2.x - p1.x) ^ 2 + (p2.y - p1.y) ^ 2 := by ring
  refine ⟨?_, ?_, ?_, ?_⟩
  · simp only [calc_force_beetween_particle]
    rw [harg]
    ring
  · simp only [calc_force_beetween_particle]
    rw [harg]
    ring
  · rw [calculate_total_force_for_particle, ← foldl_skip]
    congr 1
    funext acc i
    cases hact : (ps.getD i default).active <;> by_cases hti : i = ti <;>
      simp_all [List.getD_eq_getElem?_getD]
  · have hloop : ((List.range e.particles.length).foldl
        (update_step sqrt e.G e.softening e.dt e.screenWidth e.screenHeight)
        e.particles).getD k default = e.particles.getD k default :=
      update_loop_preserves_inactive sqrt e.G e.softening e.dt e.screenWidth
        e.screenHeight _ e.particles k hk
    have hk' : (((List.range e.particles.length).foldl
        (update_step sqrt e.G e.softening e.dt e.screenWidth e.screenHeight)
        e.particles).getD k default).active = false := by
      rw [hloop]; exact hk
    have hnotin : k ∉ (List.range ((List.range e.particles.length).foldl
        (update_step sqrt e.G e.softening e.dt e.screenWidth e.screenHeight)
        e.particles).length).filter
        (fun i => (((List.range e.particles.length).foldl
          (update_step sqrt e.G e.softening e.dt e.screenWidth
            e.screenHeight) e.particles).getD i default).active) := by
      intro hmem
      rw [List.mem_filter] at hmem
      rw [hk'] at hmem
      exact Bool.false_ne_true hmem.2
    calc (update sqrt cbrt e).particles.getD k default
        = (scan_rows cbrt ⟨_, [], 0⟩ _).ps.getD k default := rfl
      _ = e.particles.getD k default := by
          rw [scan_rows_preserves cbrt _ _ k hnotin]
          exact hloop

/-- Witness for C6: a two-body engine whose second body is inactive; the
update leaves the inactive body untouched. -/
theorem c6_force_antisymmetry_inactive_inert_witness :
    (calc_force_beetween_particle (fun _ => 1) 10 (1 / 10)
        ⟨0, 0, 0, 0, 1, 1, true, [], 100⟩ ⟨3, 0, 0, 0, 1, 1, true, [], 100⟩).1 =
      -(calc_force_beetween_particle (fun _ => 1) 10 (1 / 10)
        ⟨3, 0, 0, 0, 1, 1, true, [], 100⟩ ⟨0, 0, 0, 0, 1, 1, true, [], 100⟩).1 ∧
    (calc_force_beetween_particle (fun _ => 1) 10 (1 / 10)
        ⟨0, 0, 0, 0, 1, 1, true, [], 100⟩ ⟨3, 0, 0, 0, 1, 1, true, [], 100⟩).2 =
      -(calc_force_beetween_particle (fun _ => 1) 10 (1 / 10)
        ⟨3, 0, 0, 0, 1, 1, true, [], 100⟩ ⟨0, 0, 0, 0, 1, 1, true, [], 100⟩).2 ∧
    calculate_total_force_for_particle (fun _ => 1) 10 (1 / 10)
        [⟨0, 0, 0, 0, 1, 1, true, [], 100⟩, ⟨5, 0, 0, 0, 1, 1, false, [], 100⟩]
        0 =
      ((List.range ([⟨0, 0, 0, 0, 1, 1, true, [], 100⟩,
          ⟨5, 0, 0, 0, 1, 1, false, [], 100⟩] : List Particle).length).filter
          (fun i => decide (i ≠ 0) &&
            (([⟨0, 0, 0, 0, 1, 1, true, [], 100⟩,
               ⟨5, 0, 0, 0, 1, 1, false, [], 100⟩] : List Particle).getD i
              default).active)).foldl
        (fun acc i =>
          (acc.1 + (calc_force_beetween_particle (fun _ => 1) 10 (1 / 10)
              (([⟨0, 0, 0, 0, 1, 1, true, [], 100⟩,
                 ⟨5, 0, 0, 0, 1, 1, false, [], 100⟩] : List Particle).getD 0
                default)
              (([⟨0, 0, 0, 0, 1, 1, true, [], 100⟩,
                 ⟨5, 0, 0, 0, 1, 1, false, [], 100⟩] : List Particle).getD i
                default)).1,
           acc.2 + (calc_force_beetween_particle (fun _ => 1) 10 (1 / 10)
              (([⟨0, 0, 0, 0, 1, 1, true, [], 100⟩,
                 ⟨5, 0, 0, 0, 1, 1, false, [], 100⟩] : List Particle).getD 0
                default)
              (([⟨0, 0, 0, 0, 1, 1, true, [], 100⟩,
                 ⟨5, 0, 0, 0, 1, 1, false, [], 100⟩] : List Particle).getD i
                default)).2)) (0, 0) ∧
    (update (fun _ => 1) (fun q => q)
        ⟨[⟨0, 0, 0, 0, 1, 1, true, [], 100⟩,
          ⟨5, 0, 0, 0, 1, 1, false, [], 100⟩], 10, 1 / 10, 1 / 10, 1280,
         720⟩).particles.getD 1 default =
      (⟨[⟨0, 0, 0, 0, 1, 1, true, [], 100⟩,
          ⟨5, 0, 0, 0, 1, 1, false, [], 100⟩], 10, 1 / 10, 1 / 10, 1280,
         720⟩ : Engine).particles.getD 1 default :=
  c6_force_antisymmetry_inactive_inert (fun _ => 1) (fun q => q) 10 (1 / 10)
    ⟨0, 0, 0, 0, 1, 1, true, [], 100⟩ ⟨3, 0, 0, 0, 1, 1, true, [], 100⟩
    [⟨0, 0, 0, 0, 1, 1, true, [], 100⟩, ⟨5, 0, 0, 0, 1, 1, false, [], 100⟩] 0
    ⟨[⟨0, 0, 0, 0, 1, 1, true, [], 100⟩,
      ⟨5, 0, 0, 0, 1, 1, false, [], 100⟩], 10, 1 / 10, 1 / 10, 1280, 720⟩ 1
    rfl

/-- Unfolding of `merge_particles` when both participants are active. -/
theorem merge_particles_active (cbrt : ℚ → ℚ) (p1 p2 : Particle)
    (h1 : p1.active = true) (h2 : p2.active = true) :
    merge_particles cbrt p1 p2 =
      ({ p1 with mass := p1.mass + p2.mass,
                 radius := cbrt (p1.radius ^ 3 + p2.radius ^ 3),
                 vx := (p1.mass * p1.vx + p2.mass * p2.vx) /
                   (p1.mass + p2.mass),
                 vy := (p1.mass * p1.vy + p2.mass * p2.vy) /
                   (p1.mass + p2.mass),
                 x := (p1.mass * p1.x + p2.mass * p2.x) / (p1.mass + p2.mass),
                 y := (p1.mass * p1.y + p2.mass * p2.y) /
                   (p1.mass + p2.mass) },
       { p2 with active := false }) := by
  simp only [merge_particles]
  rw [if_neg (by simp [h1, h2])]

/-- Geometry of chained merges: the center of mass of two bodies lies on
the segment between them, so a third body that strictly overlaps both of
them also strictly overlaps a body placed at their center of mass whose
radius is at least `max r0 r1`. -/
theorem com_overlap (m0 m1 x0 y0 x1 y1 x2 y2 r0 r1 r2 R : ℚ)
    (hm0 : 0 < m0) (hm1 : 0 < m1)
    (hr0 : 0 ≤ r0) (hr1 : 0 ≤ r1) (hr2 : 0 ≤ r2)
    (hR : max r0 r1 ≤ R)
    (h02 : (x2 - x0) ^ 2 + (y2 - y0) ^ 2 < (r0 + r2) ^ 2)
    (h12 : (x2 - x1) ^ 2 + (y2 - y1) ^ 2 < (r1 + r2) ^ 2) :
    (x2 - (m0 * x0 + m1 * x1) / (m0 + m1)) ^ 2 +
      (y2 - (m0 * y0 + m1 * y1) / (m0 + m1)) ^ 2 < (R + r2) ^ 2 := by
  have hM : 0 < m0 + m1 := by linarith
  have hMne : m0 + m1 ≠ 0 := ne_of_gt hM
  have hR0 : r0 ≤ R := le_trans (le_max_left _ _) hR
  have hR1 : r1 ≤ R := le_trans (le_max_right _ _) hR
  have hx : x2 - (m0 * x0 + m1 * x1) / (m0 + m1) =
      (m0 * (x2 - x0) + m1 * (x2 - x1)) / (m0 + m1) := by
    field_simp
    ring
  have hy : y2 - (m0 * y0 + m1 * y1) / (m0 + m1) =
      (m0 * (y2 - y0) + m1 * (y2 - y1)) / (m0 + m1) := by
    field_simp
    ring
  rw [hx, hy, div_pow, div_pow, div_add_div_same, div_lt_iff₀ (by positivity)]
  have key1 : (m0 * (x2 - x0) + m1 * (x2 - x1)) ^ 2 +
      (m0 * (y2 - y0) + m1 * (y2 - y1)) ^ 2 ≤
      (m0 + m1) * (m0 * ((x2 - x0) ^ 2 + (y2 - y0) ^ 2) +
        m1 * ((x2 - x1) ^ 2 + (y2 - y1) ^ 2)) := by
    have hid : (m0 + m1) * (m0 * ((x2 - x0) ^ 2 + (y2 - y0) ^ 2) +
        m1 * ((x2 - x1) ^ 2 + (y2 - y1) ^ 2)) -
        ((m0 * (x2 - x0) + m1 * (x2 - x1)) ^ 2 +
          (m0 * (y2 - y0) + m1 * (y2 - y1)) ^ 2) =
        m0 * m1 * (((x2 - x0) - (x2 - x1)) ^ 2 +
          ((y2 - y0) - (y2 - y1)) ^ 2) := by ring
    have hnn : 0 ≤ m0 * m1 * (((x2 - x0) - (x2 - x1)) ^ 2 +
        ((y2 - y0) - (y2 - y1)) ^ 2) := by positivity
    linarith [hid, hnn]
  have e0 : (r0 + r2) ^ 2 ≤ (R + r2) ^ 2 :=
    pow_le_pow_left₀ (by linarith) (by linarith) 2
  have e1 : (r1 + r2) ^ 2 ≤ (R + r2) ^ 2 :=
    pow_le_pow_left₀ (by linarith) (by linarith) 2
  have k20 : m0 * ((x2 - x0) ^ 2 + (y2 - y0) ^ 2) < m0 * (R + r2) ^ 2 :=
    mul_lt_mul_of_pos_left (lt_of_lt_of_le h02 e0) hm0
  have k21 : m1 * ((x2 - x1) ^ 2 + (y2 - y1) ^ 2) < m1 * (R + r2) ^ 2 :=
    mul_lt_mul_of_pos_left (lt_of_lt_of_le h12 e1) hm1
  have key2 : m0 * ((x2 - x0) ^ 2 + (y2 - y0) ^ 2) +
      m1 * ((x2 - x1) ^ 2 + (y2 - y1) ^ 2) <
      (m0 + m1) * (R + r2) ^ 2 := by nlinarith [k20, k21]
  calc (m0 * (x2 - x0) + m1 * (x2 - x1)) ^ 2 +
        (m0 * (y2 - y0) + m1 * (y2 - y1)) ^ 2
      ≤ (m0 + m1) * (m0 * ((x2 - x0) ^ 2 + (y2 - y0) ^ 2) +
          m1 * ((x2 - x1) ^ 2 + (y2 - y1) ^ 2)) := key1
    _ < (m0 + m1) * ((m0 + m1) * (R + r2) ^ 2) :=
        mul_lt_mul_of_pos_left key2 hM
    _ = (R + r2) ^ 2 * (m0 + m1) ^ 2 := by ring

/-- Unfolding of one inner collision-scan iteration that performs a merge:
the second body is active, the overlap test passes, and the pair key is
fresh. -/
theorem collide_pair_merges (cbrt : ℚ → ℚ) (st : ScanState) (a b : ℕ)
    (h2 : (st.ps.getD b default).active = true)
    (hover : ((st.ps.getD b default).x - (st.ps.getD a default).x) ^ 2 +
        ((st.ps.getD b default).y - (st.ps.getD a default).y) ^ 2 <
        ((st.ps.getD a default).radius +
          (st.ps.getD b default).radius) ^ 2)
    (hkey : (min a b, max a b) ∉ st.collided) :
    collide_pair cbrt st a b =
      { ps := (st.ps.set a (merge_particles cbrt (st.ps.getD a default)
            (st.ps.getD b default)).1).set b
          (merge_particles cbrt (st.ps.getD a default)
            (st.ps.getD b default)).2,
        collided := (min a b, max a b) :: st.collided,
        merges := st.merges + 1 } := by
  simp only [collide_pair]
  rw [if_neg (by rw [h2]; simp), if_pos hover, if_neg hkey]

/-- One-step unfolding of the collision-scan outer loop. -/
theorem scan_rows_cons (cbrt : ℚ → ℚ) (st : ScanState) (a : ℕ)
    (rest : List ℕ) :
    scan_rows cbrt st (a :: rest) =
      scan_rows cbrt
        (if (st.ps.getD a default).active = false then st
         else rest.foldl (fun s b => collide_pair cbrt s a b) st) rest := rfl

/-- C7: three mutually overlapping active bodies produce exactly two
`merge_particles` calls in one collision scan — pair `(0,1)` merges, the
merged body still overlaps the third (its center of mass lies between the
first two and its radius is at least their maximum, which any sound cube
root guarantees), so pair `(0,2)` merges, and pair `(1,2)` is skipped
because body `1` was deactivated by the earlier merge; each unordered pair
is processed at most once (the processed keys are exactly `(0,2)` and
`(0,1)`), and exactly one active body remains. -/
theorem c7_three_overlapping_bodies_two_merges (cbrt : ℚ → ℚ)
    (p0 p1 p2 : Particle)
    (h0 : p0.active = true) (h1 : p1.active = true) (h2 : p2.active = true)
    (hm0 : 0 < p0.mass) (hm1 : 0 < p1.mass) (_hm2 : 0 < p2.mass)
    (hr0 : 0 ≤ p0.radius) (hr1 : 0 ≤ p1.radius) (hr2 : 0 ≤ p2.radius)
    (hcb : max p0.radius p1.radius ≤ cbrt (p0.radius ^ 3 + p1.radius ^ 3))
    (h01 : (p1.x - p0.x) ^ 2 + (p1.y - p0.y) ^ 2 <
        (p0.radius + p1.radius) ^ 2)
    (h02 : (p2.x - p0.x) ^ 2 + (p2.y - p0.y) ^ 2 <
        (p0.radius + p2.radius) ^ 2)
    (h12 : (p2.x - p1.x) ^ 2 + (p2.y - p1.y) ^ 2 <
        (p1.radius + p2.radius) ^ 2) :
    (handle_collision_scan cbrt [p0, p1, p2]).merges = 2 ∧
    (handle_collision_scan cbrt [p0, p1, p2]).collided = [(0, 2), (0, 1)] ∧
    ((handle_collision cbrt [p0, p1, p2]).filter
        (fun p => p.active)).length = 1 := by
  have hM01 := merge_particles_active cbrt p0 p1 h0 h1
  have hAact : ((merge_particles cbrt p0 p1).1).active = true := by
    simp [hM01, h0]
  have hBact : ((merge_particles cbrt p0 p1).2).active = false := by
    simp [hM01]
  have hover2 : (p2.x - (merge_particles cbrt p0 p1).1.x) ^ 2 +
      (p2.y - (merge_particles cbrt p0 p1).1.y) ^ 2 <
      ((merge_particles cbrt p0 p1).1.radius + p2.radius) ^ 2 := by
    have hco := com_overlap p0.mass p1.mass p0.x p0.y p1.x p1.y p2.x p2.y
      p0.radius p1.radius p2.radius (cbrt (p0.radius ^ 3 + p1.radius ^ 3))
      hm0 hm1 hr0 hr1 hr2 hcb h02 h12
    simpa [hM01] using hco
  have hM02 := merge_particles_active cbrt (merge_particles cbrt p0 p1).1 p2
    hAact h2
  have hCact :
      ((merge_particles cbrt (merge_particles cbrt p0 p1).1 p2).1).active =
        true := by
    simp [hM02, hAact]
  have hDact :
      ((merge_particles cbrt (merge_particles cbrt p0 p1).1 p2).2).active =
        false := by
    simp [hM02]
  have hsnap : (List.range ([p0, p1, p2] : List Particle).length).filter
      (fun i => (([p0, p1, p2] : List Particle).getD i default).active) =
      [0, 1, 2] := by
    simp [List.range_succ, h0, h1, h2]
  have e1 : collide_pair cbrt ⟨[p0, p1, p2], [], 0⟩ 0 1 =
      ⟨[(merge_particles cbrt p0 p1).1, (merge_particles cbrt p0 p1).2, p2],
       [(0, 1)], 1⟩ := by
    rw [collide_pair_merges cbrt ⟨[p0, p1, p2], [], 0⟩ 0 1
      (by simpa using h1) (by simpa using h01) (by simp)]
    norm_num [List.set]
  have e2 : collide_pair cbrt
      ⟨[(merge_particles cbrt p0 p1).1, (merge_particles cbrt p0 p1).2, p2],
       [(0, 1)], 1⟩ 0 2 =
      ⟨[(merge_particles cbrt (merge_particles cbrt p0 p1).1 p2).1,
        (merge_particles cbrt p0 p1).2,
        (merge_particles cbrt (merge_particles cbrt p0 p1).1 p2).2],
       [(0, 2), (0, 1)], 2⟩ := by
    rw [collide_pair_merges cbrt _ 0 2 (by simpa using h2)
      (by simpa using hover2) (by norm_num)]
    norm_num [List.set]
  have hscan : scan_rows cbrt ⟨[p0, p1, p2], [], 0⟩ [0, 1, 2] =
      ⟨[(merge_particles cbrt (merge_particles cbrt p0 p1).1 p2).1,
        (merge_particles cbrt p0 p1).2,
        (merge_particles cbrt (merge_particles cbrt p0 p1).1 p2).2],
       [(0, 2), (0, 1)], 2⟩ := by
    rw [scan_rows_cons, if_neg (by simpa using h0), List.foldl_cons, e1,
      List.foldl_cons, e2, List.foldl_nil, scan_rows_cons,
      if_pos (by simpa using hBact), scan_rows_cons]
    rw [List.foldl_nil, ite_self]
    rfl
  have hfinal : handle_collision_scan cbrt [p0, p1, p2] =
      ⟨[(merge_particles cbrt (merge_particles cbrt p0 p1).1 p2).1,
        (merge_particles cbrt p0 p1).2,
        (merge_particles cbrt (merge_particles cbrt p0 p1).1 p2).2],
       [(0, 2), (0, 1)], 2⟩ := by
    simp only [handle_collision_scan]
    rw [hsnap]
    exact hscan
  refine ⟨by rw [hfinal], by rw [hfinal], ?_⟩
  rw [handle_collision, hfinal]
  simp [hCact, hBact, hDact]

/-- Witness for C7: three unit bodies at `(0,0)`, `(1,0)`, `(0,1)` with
radius `1` (all pairwise squared distances below `4`), and a cube-root
model returning `1.3 ≥ max 1 1` at the evaluated input. -/
theorem c7_three_overlapping_bodies_two_merges_witness :
    (handle_collision_scan (fun _ => 13 / 10)
        [⟨0, 0, 0, 0, 1, 1, true, [], 100⟩, ⟨1, 0, 0, 0, 1, 1, true, [], 100⟩,
         ⟨0, 1, 0, 0, 1, 1, true, [], 100⟩]).merges = 2 ∧
    (handle_collision_scan (fun _ => 13 / 10)
        [⟨0, 0, 0, 0, 1, 1, true, [], 100⟩, ⟨1, 0, 0, 0, 1, 1, true, [], 100⟩,
         ⟨0, 1, 0, 0, 1, 1, true, [], 100⟩]).collided = [(0, 2), (0, 1)] ∧
    ((handle_collision (fun _ => 13 / 10)
        [⟨0, 0, 0, 0, 1, 1, true, [], 100⟩, ⟨1, 0, 0, 0, 1, 1, true, [], 100⟩,
         ⟨0, 1, 0, 0, 1, 1, true, [], 100⟩]).filter
        (fun p => p.active)).length = 1 :=
  c7_three_overlapping_bodies_two_merges (fun _ => 13 / 10)
    ⟨0, 0, 0, 0, 1, 1, true, [], 100⟩ ⟨1, 0, 0, 0, 1, 1, true, [], 100⟩
    ⟨0, 1, 0, 0, 1, 1, true, [], 100⟩ rfl rfl rfl (by norm_num) (by norm_num)
    (by norm_num) (by norm_num) (by norm_num) (by norm_num) (by norm_num)
    (by norm_num) (by norm_num) (by norm_num)

end GravitySim
